import Mathlib

/-!
Verification of the Clerk user-migration scripts (`index.ts`, `backup.ts`,
`org_ids/orgs_get_ids.ts`, and the unnamed backup variant) against their
natural-language specification.

The TypeScript sources are shallowly embedded: every pure computation is a
Lean function translated from the source, and the effectful migration loop
is modelled as a function producing an explicit trace of service calls,
sleeps and audit-log appends.  JavaScript `undefined`/`null` string fields
are both rendered as `none : Option String`.
-/

namespace Migration

/-- A parsed input record, the result of a successful `userSchema.safeParse`
(`index.ts`).  `name` and `location` are the optional free-text fields. -/
structure User where
  userId : String
  email : String
  name : Option String
  location : Option String
  agreedTerms : Bool
deriving DecidableEq, Repr

/-- JavaScript `String.prototype.trim`, as used by `splitName`
(`index.ts`): drop whitespace from both ends.  Modelled over the
character list of the string. -/
def jsTrim (s : String) : String :=
  String.mk
    (((s.data.dropWhile Char.isWhitespace).reverse.dropWhile
        Char.isWhitespace).reverse)

/-- JavaScript `split(" ")` over a character list: cut at every single
space character; the empty string yields one empty token, exactly as in
JavaScript. -/
def splitSpaces : List Char → List (List Char)
  | [] => [[]]
  | c :: rest =>
    let r := splitSpaces rest
    if c = ' ' then [] :: r
    else
      match r with
      | t :: ts => (c :: t) :: ts
      | [] => [[c]]

/-- JavaScript `s.split(" ")`, as used by `splitName` (`index.ts`). -/
def jsSplitOnSpace (s : String) : List String :=
  (splitSpaces s.data).map String.mk

/-- `splitName` from `index.ts`: a literal quotation-mark-only name is
treated as absent; otherwise the name is trimmed and split on single
spaces, with exactly two tokens taken as (first, last) and any other token
count dumped whole into the first name.  `trimmed?.split(" ") || []` is
rendered by mapping over the option and defaulting to `[]`. -/
def splitName (name : Option String) : Option String × Option String :=
  if name = some "\"" then (none, none)
  else
    let trimmed := name.map jsTrim
    let nameParts := (trimmed.map jsSplitOnSpace).getD []
    if nameParts.length = 2 then (nameParts[0]?, nameParts[1]?)
    else (trimmed, none)

/-- The location normalisation repeated in `createUser` and `updateUser`
(`index.ts`): `if (org === '"') org = undefined`. -/
def normLocation (location : Option String) : Option String :=
  if location = some "\"" then none else location

/-- The argument object passed to `clerkClient.users.createUser` in
`createUser` (`index.ts`), with the `publicMetadata` bag flattened. -/
structure CreatePayload where
  externalId : String
  emailAddress : List String
  firstName : Option String
  lastName : Option String
  skipPasswordRequirement : Bool
  agreedTermsMeta : Bool
  emailConsentMeta : Bool
  orgMeta : Option String
deriving DecidableEq, Repr

/-- `createUser` from `index.ts`, restricted to the payload it sends. -/
def createUser (userData : User) : CreatePayload :=
  let fl := splitName userData.name
  { externalId := userData.userId
    emailAddress := [userData.email]
    firstName := fl.1
    lastName := fl.2
    skipPasswordRequirement := true
    agreedTermsMeta := userData.agreedTerms
    emailConsentMeta := false
    orgMeta := normLocation userData.location }

/-- The argument object passed to `clerkClient.users.updateUser` in
`updateUser` (`index.ts`), with the `publicMetadata` bag flattened. -/
structure UpdatePayload where
  externalId : String
  firstName : Option String
  lastName : Option String
  agreedTermsMeta : Bool
  emailConsentMeta : Bool
  orgMeta : Option String
  createOrganizationEnabled : Bool
  deleteSelfEnabled : Bool
deriving DecidableEq, Repr

/-- The update payload built inside `updateUser` (`index.ts`). -/
def updatePayload (userData : User) : UpdatePayload :=
  let fl := splitName userData.name
  { externalId := userData.userId
    firstName := fl.1
    lastName := fl.2
    agreedTermsMeta := userData.agreedTerms
    emailConsentMeta := false
    orgMeta := normLocation userData.location
    createOrganizationEnabled := false
    deleteSelfEnabled := false }

/-- An existing destination entity as read back from
`clerkClient.users.getUserList` (`index.ts`).  Fields that the SDK reports
as `null`/`undefined` are `none`; the `publicMetadata` bag is flattened
into the two properties the script reads. -/
structure ClerkUser where
  id : String
  externalId : Option String
  firstName : Option String
  lastName : Option String
  agreedTermsMeta : Option Bool
  orgMeta : Option String
  createOrganizationEnabled : Bool
deriving DecidableEq, Repr

/-- The field diff tested by `updateUser` (`index.ts`): the disjunction
guarding the `clerkClient.users.updateUser` call.  Note the last disjunct
is `existing.createOrganizationEnabled` alone (the desired value is the
forced `false`). -/
def needsUpdate (existing : ClerkUser) (userData : User) : Prop :=
  existing.externalId ≠ some userData.userId ∨
  existing.firstName ≠ (splitName userData.name).1 ∨
  existing.lastName ≠ (splitName userData.name).2 ∨
  existing.agreedTermsMeta ≠ some userData.agreedTerms ∨
  existing.orgMeta ≠ normLocation userData.location ∨
  existing.createOrganizationEnabled = true

instance (existing : ClerkUser) (userData : User) :
    Decidable (needsUpdate existing userData) := by
  unfold needsUpdate; infer_instance

/-- `updateUser` from `index.ts`, as a function of the list returned by the
email lookup: the first match wins; if the diff fires, the update call
(target id and payload) is returned, otherwise nothing (`undefined`). -/
def updateUser (response : List ClerkUser) (userData : User) :
    Option (String × UpdatePayload) :=
  match response with
  | [] => none
  | existing :: _ =>
    if needsUpdate existing userData then
      some (existing.id, updatePayload userData)
    else none

/-- The outcome of one `clerkClient.users.createUser` call as discriminated
by `processUserToClerk` (`index.ts`): success, `error.status === 422`
(conflict), `error.status === 429` (rate limit), or any other error with
its raw payload. -/
inductive CreateResult where
  | ok
  | conflict
  | rateLimited
  | otherError (payload : String)
deriving DecidableEq, Repr

/-- An observable effect of the migration loop: a `setTimeout` sleep of the
given duration, a create / lookup / update call against the service, or an
`appendLog` audit entry carrying the record's `userId` and the raw error
payload. -/
inductive Event where
  | sleep (ms : Nat)
  | createCall
  | lookupCall
  | updateCall (id : String) (payload : UpdatePayload)
  | logAppend (userId : String) (payload : String)
deriving DecidableEq, Repr, BEq

/-- The trace and counter deltas produced by a stretch of the migration
run: the events in order, and the increments of the `migrated` and
`updated` counters (`index.ts`). -/
structure Outcome where
  events : List Event
  migrated : Nat
  updated : Nat
deriving DecidableEq, Repr

/-- `processUserToClerk` from `index.ts`, driven by the scripted outcomes
of the successive create attempts (head = first attempt).  The record is
the already-parsed `User`, so both `safeParse` calls succeed.  On success
the `migrated` counter increments; on 422 the email lookup (whose result
is the `lookup` parameter) feeds `updateUser` and a truthy update response
increments `updated`; on 429 the script sleeps for `retryDelay` and
re-invokes itself on the remaining outcomes; on any other error exactly
one audit entry is appended.  An empty script produces nothing (the claims
always provide an outcome for every attempt made). -/
def processUserToClerk (retryDelay : Nat) (lookup : List ClerkUser)
    (userData : User) : List CreateResult → Outcome
  | [] => ⟨[], 0, 0⟩
  | CreateResult.ok :: _ => ⟨[Event.createCall], 1, 0⟩
  | CreateResult.conflict :: _ =>
    match updateUser lookup userData with
    | some (id, p) =>
      ⟨[Event.createCall, Event.lookupCall, Event.updateCall id p], 0, 1⟩
    | none => ⟨[Event.createCall, Event.lookupCall], 0, 0⟩
  | CreateResult.rateLimited :: rest =>
    let o := processUserToClerk retryDelay lookup userData rest
    ⟨Event.createCall :: Event.sleep retryDelay :: o.events,
      o.migrated, o.updated⟩
  | CreateResult.otherError p :: _ =>
    ⟨[Event.createCall, Event.logAppend userData.userId p], 0, 0⟩

/-- The body of the `for` loop in `main` (`index.ts`) for one record:
`await cooldown()` (one pacing sleep of `delay`) followed by
`processUserToClerk`. -/
def stepRecord (delay retryDelay : Nat) (lookup : List ClerkUser)
    (userData : User) (results : List CreateResult) : Outcome :=
  let o := processUserToClerk retryDelay lookup userData results
  ⟨Event.sleep delay :: o.events, o.migrated, o.updated⟩

/-- The whole `for` loop of `main` (`index.ts`): each record comes with its
scripted lookup result and create outcomes; traces concatenate and the
counters accumulate. -/
def runRecords (delay retryDelay : Nat) :
    List (User × List ClerkUser × List CreateResult) → Outcome
  | [] => ⟨[], 0, 0⟩
  | (u, lk, rs) :: rest =>
    let o := stepRecord delay retryDelay lk u rs
    let o2 := runRecords delay retryDelay rest
    ⟨o.events ++ o2.events, o.migrated + o2.migrated, o.updated + o2.updated⟩

/-- The page of items the service returns for `getUserList({offset, limit})`
under the traversal assumptions (stable total `T`, every page before the
last holding exactly `P` distinct items): items are numbered `0, ..., T-1`
and the page at `offset` is the next `P` of them. -/
def pageAt (T P offset : Nat) : List Nat :=
  ((List.range T).drop offset).take P

/-- The `do/while` users fetch loop of `main` (`backup.ts`): request the
page at `offset`, push it onto `users`, then continue while
`totalCount > users.length`, advancing `offset` by `limit`.  Returns the
number of requests issued and the accumulated items.  The `fuel` argument
only bounds the number of iterations so the recursion is structural;
`backupFetch` supplies enough fuel for every terminating run of the
source loop. -/
def fetchGo : Nat → Nat → Nat → Nat → List Nat → Nat × List Nat
  | 0, _, _, _, users => (0, users)
  | fuel + 1, T, P, offset, users =>
    let users2 := users ++ pageAt T P offset
    if T > users2.length then
      let r := fetchGo fuel T P (offset + P) users2
      (r.1 + 1, r.2)
    else (1, users2)

/-- The users fetch loop of `main` (`backup.ts`) started from
`offset = 0`, `users = []`.  With a positive page size the loop makes at
most `T + 1` requests, so fuel `T + 1` never runs out. -/
def backupFetch (T P : Nat) : Nat × List Nat :=
  fetchGo (T + 1) T P 0 []

/-- The loop state of the orgs traversal in `main`
(`org_ids/orgs_get_ids.ts`): the current `offset`, `orgs.length`, and the
`hasMoreOrgs` flag. -/
structure OrgsState where
  offset : Nat
  orgsLen : Nat
  hasMoreOrgs : Bool
deriving DecidableEq, Repr

/-- The initial orgs fetch of `main` (`org_ids/orgs_get_ids.ts`): one page
at offset 0, `totalOrgs` read off the response, and the initial
`hasMoreOrgs = totalOrgs > orgs.length`. -/
def orgsInit (totalOrgs P : Nat) : OrgsState :=
  let len := min P totalOrgs
  ⟨0, len, decide (totalOrgs > len)⟩

/-- One iteration of the `while (hasMoreOrgs)` orgs loop in `main`
(`org_ids/orgs_get_ids.ts`): `offset = offset + limit`, fetch and push the
next batch, then `hasMoreOrgs = totalUsers > orgs.length` — the source
reassigns the flag from the USERS total, not `totalOrgs`. -/
def orgsIter (totalUsers totalOrgs P : Nat) (s : OrgsState) : OrgsState :=
  let offset := s.offset + P
  let len := s.orgsLen + min P (totalOrgs - offset)
  ⟨offset, len, decide (totalUsers > len)⟩

/-- The name-splitting rule exactly as the specification words it, for a
present name value: trim whitespace, split on single spaces; exactly two
tokens become (first, last); any other token count puts the entire trimmed
string in the first name and leaves the last name empty.  Stated from the
spec for comparison with `splitName`, which is taken from the source. -/
def splitNameSpec (s : String) : Option String × Option String :=
  let t := jsTrim s
  let toks := jsSplitOnSpace t
  if toks.length = 2 then (toks[0]?, toks[1]?) else (some t, none)

/-- Recogniser for sleep events. -/
def isSleep (e : Event) : Bool :=
  match e with
  | Event.sleep _ => true
  | _ => false

/-- Recogniser for audit-log events. -/
def isLog (e : Event) : Bool :=
  match e with
  | Event.logAppend _ _ => true
  | _ => false

/-- Recogniser for create calls. -/
def isCreate (e : Event) : Bool :=
  match e with
  | Event.createCall => true
  | _ => false

/-- A concrete valid input record used to instantiate the theorems. -/
def sampleUser : User :=
  ⟨"u1", "a@x.com", some "Ada Lovelace", some "Globe", true⟩

/-- A destination entity that agrees with `sampleUser` on every diffed
field (and has self-organization-creation already disabled). -/
def sampleMatching : ClerkUser :=
  ⟨"clerk_1", some "u1", some "Ada", some "Lovelace", some true,
    some "Globe", false⟩

/-- A destination entity whose mirrored external identifier is stale, so
the diff against `sampleUser` fires. -/
def sampleStale : ClerkUser :=
  ⟨"clerk_1", some "u0", some "Ada", some "Lovelace", some true,
    some "Globe", false⟩

/-- A record whose name and location are both the literal quotation-mark
string. -/
def quoteUser : User := ⟨"u2", "b@x.com", some "\"", some "\"", false⟩

/-- C6 counterexample: the claim quantifies over every name value, but on
the literal quotation-mark-only name the code returns (absent, absent)
rather than putting the trimmed string (the quotation mark itself, one
token) into the first name as the claimed rule dictates. -/
theorem claim6_counterexample :
    splitName (some "\"") ≠ splitNameSpec "\"" := by decide

/-- C6 (amended): for every name value other than the literal
quotation-mark-only string (which is treated as absent), the name
splitting trims whitespace and splits on single spaces; exactly two tokens
yield (first, last) = (token 1, token 2), and any other token count puts
the entire trimmed string in the first name and leaves the last name
empty. -/
theorem claim6_amended_split_name (s : String) (h : s ≠ "\"") :
    splitName (some s) = splitNameSpec s := by
  simp [splitName, splitNameSpec, h]

/-- Witness for C6: the amended theorem applied to the two-token name. -/
theorem claim6_witness :
    splitName (some "Ada Lovelace") = splitNameSpec "Ada Lovelace" :=
  claim6_amended_split_name "Ada Lovelace" (by decide)

/-- C7: a record whose name field or location field is the literal
quotation-mark string contributes no first/last name (for name) and no
organization hint (for location) to either the create payload or the
update payload. -/
theorem claim7_quote_treated_absent (u : User) :
    (u.name = some "\"" →
      (createUser u).firstName = none ∧ (createUser u).lastName = none ∧
      (updatePayload u).firstName = none ∧
      (updatePayload u).lastName = none) ∧
    (u.location = some "\"" →
      (createUser u).orgMeta = none ∧ (updatePayload u).orgMeta = none) := by
  constructor
  · intro h
    simp [createUser, updatePayload, h, splitName]
  · intro h
    simp [createUser, updatePayload, h, normLocation]

/-- Witness for C7 at a concrete record with quote name and location. -/
theorem claim7_witness :
    ((createUser quoteUser).firstName = none ∧
      (createUser quoteUser).lastName = none ∧
      (updatePayload quoteUser).firstName = none ∧
      (updatePayload quoteUser).lastName = none) ∧
    ((createUser quoteUser).orgMeta = none ∧
      (updatePayload quoteUser).orgMeta = none) :=
  ⟨(claim7_quote_treated_absent quoteUser).1 rfl,
    (claim7_quote_treated_absent quoteUser).2 rfl⟩

/-- C5: when the existing entity found by the email lookup agrees with the
source record on the external identifier, first name, last name, consent
flag and organization hint, and its self-organization-creation permission
is already the forced `false`, `updateUser` issues no update call. -/
theorem claim5_no_diff_no_update (u : User) (ex : ClerkUser)
    (rest : List ClerkUser)
    (h1 : ex.externalId = some u.userId)
    (h2 : ex.firstName = (splitName u.name).1)
    (h3 : ex.lastName = (splitName u.name).2)
    (h4 : ex.agreedTermsMeta = some u.agreedTerms)
    (h5 : ex.orgMeta = normLocation u.location)
    (h6 : ex.createOrganizationEnabled = false) :
    updateUser (ex :: rest) u = none := by
  have hnd : ¬ needsUpdate ex u := by
    unfold needsUpdate
    simp [h1, h2, h3, h4, h5, h6]
  simp [updateUser, hnd]

/-- Witness for C5 at a fully agreeing entity. -/
theorem claim5_witness : updateUser [sampleMatching] sampleUser = none :=
  claim5_no_diff_no_update sampleUser sampleMatching [] (by decide)
    (by decide) (by decide) (by decide) (by decide) (by decide)

/-- C10: on a conflict signal with an email lookup returning zero
entities, the record is silently skipped: only the failed create and the
lookup happen, no update call, no audit entry, and both counters stay
unchanged. -/
theorem claim10_conflict_empty_lookup_skipped (rd : Nat) (u : User) :
    processUserToClerk rd [] u [CreateResult.conflict] =
      ⟨[Event.createCall, Event.lookupCall], 0, 0⟩ := rfl

/-- C2: when the second reconciliation of an already-created record hits a
conflict signal, no duplicate entity is created: the pass issues exactly
one update call and bumps the updated counter by one when some diffed
field differs, and does nothing (no update call, no counter change) when
no field differs. -/
theorem claim2_second_pass_idempotent (rd : Nat) (u : User) (ex : ClerkUser)
    (rest : List ClerkUser) :
    (needsUpdate ex u →
      processUserToClerk rd (ex :: rest) u [CreateResult.conflict] =
        ⟨[Event.createCall, Event.lookupCall,
          Event.updateCall ex.id (updatePayload u)], 0, 1⟩) ∧
    (¬ needsUpdate ex u →
      processUserToClerk rd (ex :: rest) u [CreateResult.conflict] =
        ⟨[Event.createCall, Event.lookupCall], 0, 0⟩) := by
  constructor <;> intro h <;> simp [processUserToClerk, updateUser, h]

/-- Witness for C2: a stale external identifier resolves to one update; a
fully agreeing entity resolves to no change. -/
theorem claim2_witness :
    processUserToClerk 7 [sampleStale] sampleUser [CreateResult.conflict] =
      ⟨[Event.createCall, Event.lookupCall,
        Event.updateCall "clerk_1" (updatePayload sampleUser)], 0, 1⟩ ∧
    processUserToClerk 7 [sampleMatching] sampleUser
        [CreateResult.conflict] =
      ⟨[Event.createCall, Event.lookupCall], 0, 0⟩ :=
  ⟨(claim2_second_pass_idempotent 7 sampleUser sampleStale []).1 (by decide),
    (claim2_second_pass_idempotent 7 sampleUser sampleMatching []).2
      (by decide)⟩

/-- The trace of a record whose create attempt is rate-limited `n` times
and then succeeds: each rate-limited attempt is a create call followed by
one cooldown sleep, and the final attempt is the successful create. -/
def retryTrace (rd : Nat) : Nat → List Event
  | 0 => [Event.createCall]
  | n + 1 => Event.createCall :: Event.sleep rd :: retryTrace rd n

/-- C3: a record whose create attempt is rate-limited exactly twice and
then succeeds performs exactly two cooldown sleeps of the configured retry
delay, ends as created (the migrated counter increases by one, updated
unchanged) with no audit entry; and the retries are unbounded: any number
of rate-limit signals before the success still ends as created, with one
cooldown sleep per signal and no audit entry. -/
theorem claim3_rate_limit_twice_then_created (rd : Nat)
    (lookup : List ClerkUser) (u : User) :
    processUserToClerk rd lookup u
        [CreateResult.rateLimited, CreateResult.rateLimited,
          CreateResult.ok] =
      ⟨[Event.createCall, Event.sleep rd, Event.createCall, Event.sleep rd,
        Event.createCall], 1, 0⟩ ∧
    ∀ n : Nat,
      (processUserToClerk rd lookup u
          (List.replicate n CreateResult.rateLimited ++
            [CreateResult.ok])).migrated = 1 ∧
      (processUserToClerk rd lookup u
          (List.replicate n CreateResult.rateLimited ++
            [CreateResult.ok])).updated = 0 ∧
      (processUserToClerk rd lookup u
          (List.replicate n CreateResult.rateLimited ++
            [CreateResult.ok])).events.filter isSleep =
        List.replicate n (Event.sleep rd) ∧
      (processUserToClerk rd lookup u
          (List.replicate n CreateResult.rateLimited ++
            [CreateResult.ok])).events.filter isLog = [] := by
  refine ⟨rfl, ?_⟩
  have key : ∀ n : Nat,
      processUserToClerk rd lookup u
        (List.replicate n CreateResult.rateLimited ++ [CreateResult.ok]) =
      ⟨retryTrace rd n, 1, 0⟩ := by
    intro n
    induction n with
    | zero => rfl
    | succ n ih =>
      rw [List.replicate_succ, List.cons_append]
      show (⟨Event.createCall :: Event.sleep rd ::
          (processUserToClerk rd lookup u
            (List.replicate n CreateResult.rateLimited ++
              [CreateResult.ok])).events,
        (processUserToClerk rd lookup u
          (List.replicate n CreateResult.rateLimited ++
            [CreateResult.ok])).migrated,
        (processUserToClerk rd lookup u
          (List.replicate n CreateResult.rateLimited ++
            [CreateResult.ok])).updated⟩ : Outcome) = _
      rw [ih]
      rfl
  intro n
  rw [key n]
  refine ⟨rfl, rfl, ?_, ?_⟩
  · induction n with
    | zero => rfl
    | succ n ih =>
      show Event.sleep rd :: List.filter isSleep (retryTrace rd n) =
        List.replicate (n + 1) (Event.sleep rd)
      rw [ih, List.replicate_succ]
  · induction n with
    | zero => rfl
    | succ n ih =>
      show List.filter isLog (retryTrace rd n) = []
      exact ih

/-- C8: a record whose create attempt fails with an error that is neither
a conflict nor a rate-limit signal gets exactly one audit entry keyed by
its source identifier and no retry, with both counters unchanged; the run
then proceeds to the next record (here: a following record that is
created normally). -/
theorem claim8_other_error_logged_once (d rd : Nat) (u1 u2 : User)
    (p : String) (lk1 lk2 : List ClerkUser) :
    processUserToClerk rd lk1 u1 [CreateResult.otherError p] =
      ⟨[Event.createCall, Event.logAppend u1.userId p], 0, 0⟩ ∧
    runRecords d rd
        [(u1, lk1, [CreateResult.otherError p]),
          (u2, lk2, [CreateResult.ok])] =
      ⟨[Event.sleep d, Event.createCall, Event.logAppend u1.userId p,
        Event.sleep d, Event.createCall], 1, 0⟩ :=
  ⟨rfl, rfl⟩

/-- C9 counterexample: a record that is rate-limited once and then
created makes two reconciliation attempts but receives only one pacing
sleep (the re-invocation after the cooldown is not preceded by a pacing
delay), refuting the claim that every attempt is preceded by the pacing
delay. -/
theorem claim9_counterexample :
    ((stepRecord 1000 10000 [] sampleUser
        [CreateResult.rateLimited, CreateResult.ok]).events.filter
        isCreate).length = 2 ∧
    ((stepRecord 1000 10000 [] sampleUser
        [CreateResult.rateLimited, CreateResult.ok]).events.filter
        (fun e => decide (e = Event.sleep 1000))).length = 1 := by decide

/-- C9 (amended): exactly one pacing delay of the configured duration is
imposed per record, before its first reconciliation attempt;
re-invocations of reconciliation after a rate-limit signal are preceded
only by the cooldown sleep of the retry delay, never by an additional
pacing delay (every sleep inside `processUserToClerk` is a retry-delay
sleep). -/
theorem claim9_amended_pacing_once (d rd : Nat) (lk : List ClerkUser)
    (u : User) (rs : List CreateResult) :
    (stepRecord d rd lk u rs).events =
      Event.sleep d :: (processUserToClerk rd lk u rs).events ∧
    (processUserToClerk rd lk u rs).events.all
      (fun e => !isSleep e || decide (e = Event.sleep rd)) = true := by
  refine ⟨rfl, ?_⟩
  induction rs with
  | nil => rfl
  | cons r rest ih =>
    cases r with
    | ok => rfl
    | conflict =>
      rcases h : updateUser lk u with _ | ⟨id, pl⟩ <;>
        simp [processUserToClerk, h, isSleep]
    | rateLimited =>
      show ((Event.createCall :: Event.sleep rd ::
          (processUserToClerk rd lk u rest).events).all
          (fun e => !isSleep e || decide (e = Event.sleep rd))) = true
      rw [List.all_cons, List.all_cons, ih]
      simp [isSleep]
    | otherError p => rfl

/-- The orgs loop state is constant from the second iteration on when the
service holds 600 orgs and 2000 users with page size 500: all 600 orgs are
accumulated, yet the flag recomputed from the users total stays `true`. -/
theorem orgsIter_stuck (n : Nat) :
    (orgsIter 2000 600 500)^[n] (⟨500, 600, true⟩ : OrgsState) =
      ⟨500 + 500 * n, 600, true⟩ := by
  induction n with
  | zero => rfl
  | succ n ih =>
    rw [Function.iterate_succ_apply', ih]
    show (⟨500 + 500 * n + 500,
        600 + min 500 (600 - (500 + 500 * n + 500)),
        decide (2000 > 600 + min 500 (600 - (500 + 500 * n + 500)))⟩ :
        OrgsState) = _
    have h0 : 600 - (500 + 500 * n + 500) = 0 := by omega
    rw [h0]
    simp only [OrgsState.mk.injEq]
    refine ⟨by omega, rfl, rfl⟩

/-- C4: the orgs traversal of `org_ids/orgs_get_ids.ts` recomputes
`hasMoreOrgs` from the USERS total count instead of the orgs total.  With
2000 users, 600 orgs and page size 500, after one loop iteration all 600
orgs are accumulated — the orgs total no longer exceeds the accumulated
count — yet `hasMoreOrgs` is `true`, and it stays `true` after every
further iteration: the loop keeps fetching (empty) pages forever instead
of stopping, contradicting the claimed same-collection termination
condition. -/
theorem claim4_orgs_loop_uses_users_total :
    orgsInit 600 500 = ⟨0, 500, true⟩ ∧
    orgsIter 2000 600 500 (orgsInit 600 500) = ⟨500, 600, true⟩ ∧
    ∀ n : Nat,
      ((orgsIter 2000 600 500)^[n]
        (orgsIter 2000 600 500 (orgsInit 600 500))).hasMoreOrgs = true := by
  refine ⟨by decide, by decide, ?_⟩
  intro n
  have h2 : orgsIter 2000 600 500 (orgsInit 600 500) =
      (⟨500, 600, true⟩ : OrgsState) := by decide
  rw [h2, orgsIter_stuck]

/-- Closed form of the users fetch loop (`backup.ts`): started at any
offset `offset ≤ T` with the items fetched so far, and given enough fuel,
the loop issues `max 1 ⌈(T - offset)/P⌉` further requests and ends holding
the whole collection. -/
theorem fetchGo_spec (T P : Nat) (hP : 0 < P) :
    ∀ fuel offset, offset ≤ T → T - offset < fuel * P →
      fetchGo fuel T P offset ((List.range T).take offset) =
        (max 1 ((T - offset + P - 1) / P), List.range T) := by
  intro fuel
  induction fuel with
  | zero =>
    intro offset hoff hfuel
    exact absurd hfuel (by omega)
  | succ fuel ih =>
    intro offset hoff hfuel
    have hpage : (List.range T).take offset ++ pageAt T P offset =
        (List.range T).take (offset + P) := by
      rw [List.take_add]
      rfl
    rw [show fetchGo (fuel + 1) T P offset ((List.range T).take offset) =
        (if T > ((List.range T).take offset ++ pageAt T P offset).length
        then
          ((fetchGo fuel T P (offset + P)
              ((List.range T).take offset ++ pageAt T P offset)).1 + 1,
            (fetchGo fuel T P (offset + P)
              ((List.range T).take offset ++ pageAt T P offset)).2)
        else (1, (List.range T).take offset ++ pageAt T P offset))
        from rfl]
    rw [hpage, List.length_take, List.length_range]
    by_cases hc : offset + P < T
    · have hcond : T > min (offset + P) T := by omega
      rw [if_pos hcond]
      have hfuel2 : T - (offset + P) < fuel * P := by
        rw [Nat.succ_mul] at hfuel
        omega
      rw [ih (offset + P) (by omega) hfuel2]
      simp only [Prod.mk.injEq]
      refine ⟨?_, trivial⟩
      have e2 : T - (offset + P) + P - 1 = T - offset - 1 := by omega
      have e1 : T - offset + P - 1 = T - offset - 1 + P := by omega
      rw [e2, e1, Nat.add_div_right _ hP]
      have h1 : 1 ≤ (T - offset - 1) / P :=
        (Nat.le_div_iff_mul_le hP).mpr (by omega)
      rw [max_eq_right h1, max_eq_right (Nat.le_add_left 1 _)]
    · have hcond : ¬ T > min (offset + P) T := by omega
      rw [if_neg hcond]
      have htake : (List.range T).take (offset + P) = List.range T :=
        List.take_of_length_le (by rw [List.length_range]; omega)
      have hq : (T - offset + P - 1) / P < 2 :=
        (Nat.div_lt_iff_lt_mul hP).mpr (by omega)
      have hmax : max 1 ((T - offset + P - 1) / P) = 1 :=
        max_eq_left (by omega)
      rw [htake, hmax]

/-- C1 counterexample: at total count 0 (page size 500) the do-while loop
still issues its unconditional first request, so the request count is 1,
not ⌈0/500⌉ = 0. -/
theorem claim1_counterexample :
    (backupFetch 0 500).1 ≠ (0 + 500 - 1) / 500 := by decide

/-- C1 (amended): for every stable total count T and positive page size P
(with every page before the last returning exactly P distinct items), the
fetch loop issues exactly max(1, ⌈T/P⌉) list requests — the loop body runs
before the condition is tested, so T = 0 still issues one request — and
the concatenation of the returned pages is exactly the whole collection
of T items. -/
theorem claim1_amended_paginator (T P : Nat) (hP : 0 < P) :
    backupFetch T P = (max 1 ((T + P - 1) / P), List.range T) := by
  have hfuel : T - 0 < (T + 1) * P := by
    have h := Nat.le_mul_of_pos_right (T + 1) hP
    omega
  exact fetchGo_spec T P hP (T + 1) 0 (Nat.zero_le T) hfuel

/-- Witness for C1 (amended) at T = 3, P = 2: two requests, three items. -/
theorem claim1_witness :
    backupFetch 3 2 = (max 1 ((3 + 2 - 1) / 2), List.range 3) :=
  claim1_amended_paginator 3 2 (by decide)

end Migration

